import Mathlib

/-!
Shallow embedding of the metapkg requirements-resolution engine.

Source files embedded:
  - metapkg/req_writer.py   (RequirementsWriter: import/package mapping,
    scanning, pyproject parsing, requirements writing, method dispatch)
  - metapkg/toml_manager.py (manifest read/append)
  - metapkg/import_scanner.py (scan_imports / suggest_missing_deps)

Modelling conventions:
  - A Python dict is an association list with insert-overwrites-in-place
    semantics (`dictInsert` / `dictGet`), preserving insertion order.
  - A Python set of strings is a duplicate-free list built with `setAdd`;
    only membership and sorted iteration are consumed downstream.
  - File-system reads and `ast.parse` outcomes are inputs: a source file is
    represented by its read/parse outcome (`Except Unit (List AstNode)`),
    a distribution by its metadata (`Dist`), the pyproject file by the
    extracted dependency list or a parse failure.
  - A raised Python exception is `Except.error`; `Except.ok` carries the
    value produced (for `update_requirements`, the written file's lines).
-/

namespace Metapkg

/-- Python dict insertion: replace the value at the first occurrence of the
key, keeping its position, else append the new binding at the end. -/
def dictInsert {α : Type} : List (String × α) → String → α → List (String × α)
  | [], k, v => [(k, v)]
  | p :: ps, k, v => if p.1 = k then (k, v) :: ps else p :: dictInsert ps k v

/-- Python `d.get(k)`: the value at the first binding of `k`, if any. -/
def dictGet {α : Type} (m : List (String × α)) (k : String) : Option α :=
  (m.find? (fun p => p.1 == k)).map (fun p => p.2)

/-- Python set `add`: append the element unless already present. -/
def setAdd (s : List String) (x : String) : List String :=
  if x ∈ s then s else s ++ [x]

/-- Insert into a list keeping it sorted w.r.t. `le`. -/
def insertLe {α : Type} (le : α → α → Bool) (x : α) : List α → List α
  | [] => [x]
  | y :: ys => if le x y then x :: y :: ys else y :: insertLe le x ys

/-- Insertion sort, modelling Python `sorted` (keys are unique wherever it
is applied here, so tie order is irrelevant). -/
def insertionSort {α : Type} (le : α → α → Bool) : List α → List α
  | [] => []
  | x :: xs => insertLe le x (insertionSort le xs)

theorem insertLe_perm {α : Type} (le : α → α → Bool) (x : α) (l : List α) :
    List.Perm (insertLe le x l) (x :: l) := by
  induction l with
  | nil => rfl
  | cons y ys ih =>
    simp only [insertLe]
    split
    · rfl
    · exact ((ih.cons y).trans (List.Perm.swap x y ys))

theorem insertionSort_perm {α : Type} (le : α → α → Bool) (l : List α) :
    List.Perm (insertionSort le l) l := by
  induction l with
  | nil => rfl
  | cons x xs ih => exact (insertLe_perm le x (insertionSort le xs)).trans (ih.cons x)

theorem mem_insertionSort {α : Type} (le : α → α → Bool) (x : α) (l : List α) :
    x ∈ insertionSort le l ↔ x ∈ l :=
  (insertionSort_perm le l).mem_iff

theorem pairwise_insertLe {α : Type} (le : α → α → Bool)
    (htot : ∀ a b, le a b = true ∨ le b a = true)
    (htrans : ∀ a b c, le a b = true → le b c = true → le a c = true)
    (x : α) (l : List α) (hl : l.Pairwise (fun a b => le a b = true)) :
    (insertLe le x l).Pairwise (fun a b => le a b = true) := by
  induction l with
  | nil => simp [insertLe]
  | cons y ys ih =>
    simp only [insertLe]
    rcases List.pairwise_cons.mp hl with ⟨hy, hys⟩
    split
    · next hxy =>
      refine List.pairwise_cons.mpr ⟨?_, hl⟩
      intro z hz
      rcases List.mem_cons.mp hz with rfl | hz
      · exact hxy
      · exact htrans x y z hxy (hy z hz)
    · next hxy =>
      have hyx : le y x = true := by
        rcases htot x y with h | h
        · exact absurd h hxy
        · exact h
      refine List.pairwise_cons.mpr ⟨?_, ih hys⟩
      intro z hz
      have hz2 : z ∈ x :: ys := (insertLe_perm le x ys).mem_iff.mp hz
      rcases List.mem_cons.mp hz2 with rfl | hz2
      · exact hyx
      · exact hy z hz2

theorem pairwise_insertionSort {α : Type} (le : α → α → Bool)
    (htot : ∀ a b, le a b = true ∨ le b a = true)
    (htrans : ∀ a b c, le a b = true → le b c = true → le a c = true)
    (l : List α) : (insertionSort le l).Pairwise (fun a b => le a b = true) := by
  induction l with
  | nil => simp [insertionSort]
  | cons x xs ih => exact pairwise_insertLe le htot htrans x (insertionSort le xs) ih

/-- Code-point lexicographic comparison of character lists: the order
Python string comparison and `sorted` use. Written on character lists so
that it evaluates by kernel reduction. -/
def chLe : List Char → List Char → Bool
  | [], _ => true
  | _ :: _, [] => false
  | a :: as, b :: bs => if a = b then chLe as bs else decide (a < b)

/-- String comparison used by Python `sorted` on strings. -/
def strLe (a b : String) : Bool := chLe a.data b.data

theorem chLe_total (a : List Char) : ∀ b, chLe a b = true ∨ chLe b a = true := by
  induction a with
  | nil => intro b; left; rfl
  | cons x xs ih =>
    intro b
    cases b with
    | nil => right; rfl
    | cons y ys =>
      by_cases hxy : x = y
      · subst hxy
        simp only [chLe, if_pos rfl]
        exact ih ys
      · have hyx : y ≠ x := fun h => hxy h.symm
        simp only [chLe, if_neg hxy, if_neg hyx, decide_eq_true_eq]
        exact lt_or_gt_of_ne hxy

theorem chLe_trans (a : List Char) :
    ∀ b c, chLe a b = true → chLe b c = true → chLe a c = true := by
  induction a with
  | nil => intro b c _ _; rfl
  | cons x xs ih =>
    intro b c hab hbc
    cases b with
    | nil => simp [chLe] at hab
    | cons y ys =>
      cases c with
      | nil => simp [chLe] at hbc
      | cons z zs =>
        simp only [chLe] at hab hbc ⊢
        by_cases hxy : x = y
        · rw [if_pos hxy] at hab
          by_cases hyz : y = z
          · rw [if_pos hyz] at hbc
            rw [if_pos (hxy.trans hyz)]
            exact ih ys zs hab hbc
          · have hxz : ¬ x = z := fun h => hyz (hxy.symm.trans h)
            rw [if_neg hyz, decide_eq_true_eq] at hbc
            rw [if_neg hxz, decide_eq_true_eq, hxy]
            exact hbc
        · rw [if_neg hxy, decide_eq_true_eq] at hab
          by_cases hyz : y = z
          · have hxz : ¬ x = z := fun h => hxy (h.trans hyz.symm)
            rw [if_neg hxz, decide_eq_true_eq, ← hyz]
            exact hab
          · rw [if_neg hyz, decide_eq_true_eq] at hbc
            have hlt : x < z := lt_trans hab hbc
            rw [if_neg (ne_of_lt hlt), decide_eq_true_eq]
            exact hlt

theorem strLe_total (a b : String) : strLe a b = true ∨ strLe b a = true :=
  chLe_total a.data b.data

theorem strLe_trans (a b c : String) :
    strLe a b = true → strLe b c = true → strLe a c = true :=
  chLe_trans a.data b.data c.data

/-!
### Python string primitives

`String.toLower`, `String.trim` and `String.splitOn` in the Lean library
are written against byte iterators and do not evaluate by kernel
reduction, so the Python string methods the source uses are embedded
directly on character lists.
-/

/-- Python `str.lower()` (ASCII case mapping, which covers every name the
program handles). -/
def pyLower (s : String) : String := String.mk (s.data.map Char.toLower)

/-- Python `str.strip()`: drop whitespace from both ends. -/
def pyStrip (s : String) : String :=
  String.mk
    (((s.data.dropWhile Char.isWhitespace).reverse.dropWhile
      Char.isWhitespace).reverse)

/-- Helper for `splitOnChar`: `acc` holds the current segment reversed. -/
def splitOnCharAux (sep : Char) : List Char → List Char → List String
  | [], acc => [String.mk acc.reverse]
  | c :: cs, acc =>
    if c = sep then String.mk acc.reverse :: splitOnCharAux sep cs []
    else splitOnCharAux sep cs (c :: acc)

/-- Python `str.split(sep)` for a one-character separator (also standing
in for `str.splitlines()` on the newline-separated `top_level.txt`). -/
def splitOnChar (sep : Char) (s : String) : List String :=
  splitOnCharAux sep s.data []

/-!
### req_writer.py: the import-name → package-name map

`manual_mappings` from `RequirementsWriter._build_import_package_map`
(req_writer.py lines 77-128), in source order. A Python value of `None`
(marking a standard-library name) is `none`.
-/

/-- The fixed manual alias dict of `_build_import_package_map`. -/
def manualMappings : List (String × Option String) :=
  [("numpy", some "numpy"),
   ("np", some "numpy"),
   ("pandas", some "pandas"),
   ("pd", some "pandas"),
   ("matplotlib", some "matplotlib"),
   ("plt", some "matplotlib"),
   ("sklearn", some "scikit-learn"),
   ("torch", some "torch"),
   ("tf", some "tensorflow"),
   ("cv2", some "opencv-python"),
   ("bs4", some "beautifulsoup4"),
   ("dotenv", some "python-dotenv"),
   ("yaml", some "pyyaml"),
   ("PIL", some "pillow"),
   ("flask", some "flask"),
   ("django", some "django"),
   ("requests", some "requests"),
   ("boto3", some "boto3"),
   ("sqlalchemy", some "sqlalchemy"),
   ("pytest", some "pytest"),
   ("fastapi", some "fastapi"),
   ("typer", some "typer"),
   ("click", some "click"),
   ("rich", some "rich"),
   ("tomli", some "tomli"),
   ("tomli_w", some "tomli-w"),
   ("toml", some "toml"),
   ("uvicorn", some "uvicorn"),
   ("pydantic", some "pydantic"),
   ("redis", some "redis"),
   ("psycopg2", some "psycopg2-binary"),
   ("pymongo", some "pymongo"),
   ("jwt", some "pyjwt"),
   ("cryptography", some "cryptography"),
   ("unittest", none),
   ("mock", some "pytest-mock"),
   ("json", none),
   ("os", none),
   ("sys", none),
   ("re", none),
   ("math", none),
   ("datetime", none),
   ("collections", none),
   ("typing", none),
   ("pathlib", none),
   ("shutil", none),
   ("subprocess", none),
   ("argparse", none),
   ("logging", none),
   ("time", none)]

/-- One installed distribution as seen by `_build_import_package_map`:
`name` is `dist.metadata[Name]` (`""` models a missing/empty name, the
`if pkg_name:` guard), `topLevel` is the text of `top_level.txt`
(`none` models `read_text` raising, the inner `except` branch). -/
structure Dist where
  name : String
  topLevel : Option String

/-- The body of the per-distribution loop of `_build_import_package_map`:
insert the lowered package name as a self-mapping, then one entry per
non-blank line of `top_level.txt`. -/
def buildStep (m : List (String × Option String)) (d : Dist) :
    List (String × Option String) :=
  if d.name ≠ "" then
    match d.topLevel with
    | none => dictInsert m (pyLower d.name) (some d.name)
    | some txt =>
      if txt ≠ "" then
        (splitOnChar '\n' txt).foldl
          (fun m2 mod =>
            if pyStrip mod ≠ "" then
              dictInsert m2 (pyLower (pyStrip mod)) (some d.name)
            else m2)
          (dictInsert m (pyLower d.name) (some d.name))
      else dictInsert m (pyLower d.name) (some d.name)
  else m

/-- `RequirementsWriter._build_import_package_map`: start from the manual
dict, then fold the installed distributions over it. -/
def buildImportPackageMap (dists : List Dist) : List (String × Option String) :=
  dists.foldl buildStep manualMappings

/-- The keys which `buildStep` inserts for one distribution: its lowered
name and the lowered stripped non-blank lines of its `top_level.txt`.
Used to delimit where the manual table still decides. -/
def distKeys (d : Dist) : List String :=
  if d.name ≠ "" then
    pyLower d.name ::
      (match d.topLevel with
       | none => []
       | some txt =>
         if txt ≠ "" then
           ((splitOnChar '\n' txt).filter (fun mod => pyStrip mod ≠ "")).map
             (fun mod => pyLower (pyStrip mod))
         else [])
  else []

/-- All keys the environment-derived pass of `_build_import_package_map`
inserts. -/
def envKeys (dists : List Dist) : List String :=
  (dists.map distKeys).flatten

/-- `ImportNameMapper.resolve` as implemented: the lookup
`self.import_to_package_map.get(import_name.lower())` (req_writer.py line
319). `none` = unmapped, `some none` = mapped to Python `None`
(standard-library marker), `some (some p)` = mapped to distribution `p`. -/
def resolve (m : List (String × Option String)) (name : String) :
    Option (Option String) :=
  dictGet m (pyLower name)

/-!
### req_writer.py: standard-library classification and import scanning
-/

/-- The curated fallback list of `_get_stdlib_modules`
(req_writer.py lines 62-70). -/
def curatedStdlib : List String :=
  ["abc", "argparse", "ast", "asyncio", "collections", "configparser",
   "contextlib", "copy", "csv", "datetime", "decimal", "enum", "functools",
   "glob", "hashlib", "http", "inspect", "io", "itertools", "json", "logging",
   "math", "multiprocessing", "os", "pathlib", "pickle", "random", "re",
   "shutil", "signal", "socket", "sqlite3", "ssl", "string", "subprocess",
   "sys", "tempfile", "threading", "time", "traceback", "typing", "unittest",
   "urllib", "uuid", "warnings", "xml", "zipfile"]

/-- `RequirementsWriter._get_stdlib_modules`: the union of the names found
by runtime introspection (`pkgutil.iter_modules` packages plus
`sys.builtin_module_names`, passed in as `envNames` since they depend on
the running interpreter) with the curated fallback list. Only membership
is consumed, so the set is a list. -/
def stdlibModules (envNames : List String) : List String :=
  envNames ++ curatedStdlib

/-- An import statement node as delivered by `ast.walk`: `imp` is
`ast.Import` with its (dotted) alias names, `impFrom` is `ast.ImportFrom`
whose `module` is `none` for a relative import. Other node kinds are
ignored by the scanners and are not represented. -/
inductive AstNode
  | imp (names : List String)
  | impFrom (module : Option String)

/-- The read/parse outcome of one source file: `Except.error ()` models
any read, decode or parse failure; `Except.ok nodes` models a successful
parse with the import nodes listed in walk order. -/
abbrev FileParse := Except Unit (List AstNode)

/-- `name.split(".")[0]`: the root segment of a dotted module path. -/
def rootModule (name : String) : String := (splitOnChar '.' name).headD ""

/-- The root import names one AST node contributes. -/
def nodeImports : AstNode → List String
  | .imp names => names.map rootModule
  | .impFrom (some m) => [rootModule m]
  | .impFrom none => []

/-- The shared import-collection loop of `RequirementsWriter._scan_imports`
(req_writer.py lines 231-265) and `import_scanner.scan_imports` (lines
6-18): fold over the files, skipping every file whose read or parse
failed, adding each node's root names to the set. -/
def collectRootImports (files : List FileParse) : List String :=
  files.foldl
    (fun imports f =>
      match f with
      | .ok nodes =>
        nodes.foldl (fun acc n => (nodeImports n).foldl setAdd acc) imports
      | .error _ => imports)
    []

/-- `RequirementsWriter._scan_imports`: returns the set of root import
names (the file list stands for `_find_python_files`' result). -/
def scanImportsWriter (files : List FileParse) : List String :=
  collectRootImports files

/-- `RequirementsWriter._map_imports_to_packages` (req_writer.py lines
301-325): skip names in the stdlib set, look the rest up lowered in the
import-package map, keep truthy results with their installed version.
`version pkg` models `_get_package_version(pkg)` (already `""` when the
distribution is not installed, matching the caught lookup failure). -/
def mapImportsToPackages (stdlib : List String)
    (impMap : List (String × Option String)) (version : String → String)
    (imports : List String) : List (String × String) :=
  imports.foldl
    (fun packages import_name =>
      if import_name ∈ stdlib then packages
      else
        match (dictGet impMap (pyLower import_name)).join with
        | some package_name =>
          if package_name ≠ "" then
            dictInsert packages package_name (version package_name)
          else packages
        | none => packages)
    []

/-!
### req_writer.py: pyproject parsing, writing, method dispatch
-/

/-- The regex `^([a-zA-Z0-9_.-]+)` of `generate_from_pyproject`: the
longest leading run of allowed characters, `none` when empty (no match). -/
def extractName (dep : String) : Option String :=
  let cs := dep.toList.takeWhile
    (fun c => c.isAlphanum ∨ c = '_' ∨ c = '.' ∨ c = '-')
  if cs.isEmpty then none else some (String.mk cs)

/-- The pyproject file as `generate_from_pyproject` sees it: `none` = file
absent, `some (Except.error ())` = present but `toml.load` raised,
`some (Except.ok deps)` = the `project.dependencies` list (defaulting to
`[]` inside the parse is already folded into `deps`). -/
abbrev PyprojectFile := Option (Except Unit (List String))

/-- `RequirementsWriter.generate_from_pyproject` (req_writer.py lines
352-386): empty on a missing or unparseable file, else one entry per
dependency whose name the regex matches, with its installed version. -/
def generateFromPyproject (pyproject : PyprojectFile)
    (version : String → String) : List (String × String) :=
  match pyproject with
  | none => []
  | some (.error _) => []
  | some (.ok deps) =>
    deps.foldl
      (fun packages dep =>
        match extractName dep with
        | some pkg_name => dictInsert packages pkg_name (version pkg_name)
        | none => packages)
      []

/-- The two comment lines and blank line written first by
`write_requirements` (req_writer.py lines 402-403). -/
def headerLines : List String :=
  ["# This file was generated by metapkg",
   "# https://github.com/yourusername/metapkg",
   ""]

/-- `sorted(packages.items())`: the entries sorted by package name (the
dict's keys are unique, so the tuple comparison reduces to the key). -/
def sortByName (packages : List (String × String)) : List (String × String) :=
  insertionSort (fun p q => strLe p.1 q.1) packages

/-- One output line of `write_requirements`: `name==version` when the
version string is truthy, bare `name` otherwise. -/
def renderLine (p : String × String) : String :=
  if p.2 ≠ "" then p.1 ++ "==" ++ p.2 else p.1

/-- `RequirementsWriter.write_requirements` (req_writer.py lines 388-411),
as the list of lines of the file it writes (each line is terminated by a
newline in the actual file). -/
def write_requirements (packages : List (String × String)) : List String :=
  headerLines ++ (sortByName packages).map renderLine

/-- The inputs a `RequirementsWriter` run depends on: the pyproject file,
the source files found, the result of `_get_installed_packages` (its
pip-chill / pip-freeze subprocess output is external, so the resulting
dict is an input), the installed distributions' metadata, the
interpreter-derived stdlib names, and the installed-version lookup
(`""` for a distribution that is not installed). -/
structure World where
  pyproject : PyprojectFile
  files : List FileParse
  envPackages : List (String × String)
  dists : List Dist
  stdlibEnv : List String
  version : String → String

/-- `RequirementsWriter.generate_from_imports`: scan then map. -/
def generateFromImports (w : World) : List (String × String) :=
  mapImportsToPackages (stdlibModules w.stdlibEnv)
    (buildImportPackageMap w.dists) w.version (scanImportsWriter w.files)

/-- `RequirementsWriter.update_requirements` (req_writer.py lines
413-453): resolve `auto` by pyproject existence, dispatch on the method,
raise `ValueError` on anything unrecognized. `Except.ok` carries the lines
of the file written by the final `write_requirements` call; the
`Except.error` of the `ValueError` branch is raised before any write. -/
def update_requirements (w : World) (method : String) :
    Except String (List String) :=
  let m := if method = "auto" then
    (if w.pyproject.isSome then "pyproject" else "imports") else method
  if m = "env" then .ok (write_requirements w.envPackages)
  else if m = "imports" then .ok (write_requirements (generateFromImports w))
  else if m = "pyproject" then
    .ok (write_requirements (generateFromPyproject w.pyproject w.version))
  else .error ("Unknown method: " ++ m)

/-!
### toml_manager.py
-/

/-- The `project` table of the manifest, restricted to the key the
embedded operations touch: `dependencies` is `none` when the key is
absent (so `setdefault` / `.get` must supply the default). The remaining
manifest keys (name, version, authors, ...) are never read or written by
`get_dependencies` / `add_dependency` except for being carried through
unchanged, so they are not represented. -/
structure ProjectTable where
  dependencies : Option (List String)
deriving DecidableEq

/-- The parsed pyproject document, restricted likewise: `project` is
`none` when the table is absent. -/
structure Manifest where
  project : Option ProjectTable
deriving DecidableEq

/-- `toml_manager.get_dependencies` (toml_manager.py lines 18-22): `[]`
when the file does not exist, else
`data.get("project", {}).get("dependencies", [])`. The argument is the
outcome of `read_toml` (`none` = no `pyproject.toml`). -/
def get_dependencies (disk : Option Manifest) : List String :=
  match disk with
  | none => []
  | some data => (data.project.getD ⟨none⟩).dependencies.getD []

/-- `toml_manager.add_dependency` (toml_manager.py lines 24-33).
`disk` is the current file state (`none` = no `pyproject.toml`). The
result pairs the file state after the call (unchanged when nothing was
written) with the returned boolean; `Except.error` is the raised
`FileNotFoundError`. -/
def add_dependency (disk : Option Manifest) (dep : String) :
    Except String (Option Manifest × Bool) :=
  match disk with
  | none => .error "pyproject.toml not found. Run 'metapkg init' first."
  | some data =>
    let deps := (data.project.getD ⟨none⟩).dependencies.getD []
    if dep ∉ deps then
      .ok (some ⟨some ⟨some (deps ++ [dep])⟩⟩, true)
    else
      .ok (some data, false)

/-!
### import_scanner.py
-/

/-- `import_scanner.scan_imports` (import_scanner.py lines 5-19): collect
the root import names of every file that parses (the file list stands for
`Path().rglob` on the tree) and return them sorted. -/
def scan_imports (files : List FileParse) : List String :=
  insertionSort strLe (collectRootImports files)

/-- `import_scanner.suggest_missing_deps` (import_scanner.py lines 21-31),
as the sorted list of names it prints as suggestions (empty when it
prints that all imports are covered): the raw set difference
`set(scan_imports()) - set(get_dependencies())`. -/
def suggest_missing_deps (disk : Option Manifest) (files : List FileParse) :
    List String :=
  let installed := get_dependencies disk
  let scanned := scan_imports files
  insertionSort strLe (scanned.filter (fun x => !installed.contains x))

/-!
### InstalledPackageIndex.top_level_only (spec §4.4)

The repository text on hand contains `RequirementsWriter._get_installed_packages`
(pip-chill / pip-freeze subprocesses), but not the reverse-dependency-set
implementation of top-level filtering that the spec describes (§9 notes
the original holds two divergent implementations); the record type and
filter below are therefore modelled from the spec.
-/

/-- Modelled from the spec: the `DistributionRecord` of §3 — name,
version, and the dependency names the distribution's metadata declares. -/
structure DistributionRecord where
  name : String
  version : String
  declared_requires : List String
deriving DecidableEq

/-- Modelled from the spec: `top_level_only(records)` (§4.4), missing from
the source on hand — keep exactly the records whose name appears in no
other record's `declared_requires`. -/
def top_level_only (records : List DistributionRecord) :
    List DistributionRecord :=
  records.filter
    (fun d => decide (¬ ∃ e ∈ records, e ≠ d ∧ d.name ∈ e.declared_requires))

/-!
### Helper lemmas
-/

theorem dictGet_dictInsert_ne {α : Type} (m : List (String × α)) (k k2 : String)
    (v : α) (h : k2 ≠ k) : dictGet (dictInsert m k v) k2 = dictGet m k2 := by
  have hkk : (k == k2) = false := beq_eq_false_iff_ne.mpr (Ne.symm h)
  induction m with
  | nil => simp [dictInsert, dictGet, List.find?_cons, hkk]
  | cons p ps ih =>
    by_cases hp : p.1 = k
    · have hb : (p.1 == k2) = false := by rw [hp]; exact hkk
      simp [dictInsert, if_pos hp, dictGet, List.find?_cons, hkk, hb]
    · cases hb : (p.1 == k2) with
      | true =>
        simp [dictInsert, if_neg hp, dictGet, List.find?_cons, hb]
      | false =>
        simp only [dictInsert, if_neg hp, dictGet, List.find?_cons, hb]
        simpa [dictGet] using ih

theorem mem_setAdd (s : List String) (x y : String) :
    y ∈ setAdd s x ↔ y ∈ s ∨ y = x := by
  unfold setAdd
  split
  · next hx =>
    constructor
    · exact Or.inl
    · rintro (h | rfl)
      · exact h
      · exact hx
  · simp

theorem mem_foldl_setAdd (l : List String) (acc : List String) (y : String) :
    y ∈ l.foldl setAdd acc ↔ y ∈ acc ∨ y ∈ l := by
  induction l generalizing acc with
  | nil => simp
  | cons x xs ih =>
    simp only [List.foldl_cons, ih, mem_setAdd, List.mem_cons]
    tauto

theorem mem_nodesFold (nodes : List AstNode) (acc : List String) (y : String) :
    y ∈ nodes.foldl (fun a n => (nodeImports n).foldl setAdd a) acc ↔
      y ∈ acc ∨ ∃ n ∈ nodes, y ∈ nodeImports n := by
  induction nodes generalizing acc with
  | nil => simp
  | cons n ns ih =>
    simp only [List.foldl_cons, ih, mem_foldl_setAdd, List.mem_cons]
    constructor
    · rintro ((h | h) | ⟨n2, hn2, hy⟩)
      · exact Or.inl h
      · exact Or.inr ⟨n, Or.inl rfl, h⟩
      · exact Or.inr ⟨n2, Or.inr hn2, hy⟩
    · rintro (h | ⟨n2, (rfl | hn2), hy⟩)
      · exact Or.inl (Or.inl h)
      · exact Or.inl (Or.inr hy)
      · exact Or.inr ⟨n2, hn2, hy⟩

theorem mem_collect_aux (files : List FileParse) (acc : List String) (y : String) :
    y ∈ files.foldl
        (fun imports f =>
          match f with
          | .ok nodes =>
            nodes.foldl (fun a n => (nodeImports n).foldl setAdd a) imports
          | .error _ => imports)
        acc ↔
      y ∈ acc ∨
        ∃ nodes, (Except.ok nodes : FileParse) ∈ files ∧
          ∃ n ∈ nodes, y ∈ nodeImports n := by
  induction files generalizing acc with
  | nil => simp
  | cons f fs ih =>
    cases f with
    | ok nodes =>
      simp only [List.foldl_cons, ih, mem_nodesFold, List.mem_cons,
        Except.ok.injEq]
      constructor
      · rintro ((h | ⟨n, hn, hy⟩) | ⟨ns2, hns2, n, hn, hy⟩)
        · exact Or.inl h
        · exact Or.inr ⟨nodes, Or.inl rfl, n, hn, hy⟩
        · exact Or.inr ⟨ns2, Or.inr hns2, n, hn, hy⟩
      · rintro (h | ⟨ns2, (rfl | hns2), n, hn, hy⟩)
        · exact Or.inl (Or.inl h)
        · exact Or.inl (Or.inr ⟨n, hn, hy⟩)
        · exact Or.inr ⟨ns2, hns2, n, hn, hy⟩
    | error e =>
      simp only [List.foldl_cons, ih, List.mem_cons]
      constructor
      · rintro (h | ⟨ns2, hns2, hrest⟩)
        · exact Or.inl h
        · exact Or.inr ⟨ns2, Or.inr hns2, hrest⟩
      · rintro (h | ⟨ns2, (hbad | hns2), hrest⟩)
        · exact Or.inl h
        · exact absurd hbad (by simp)
        · exact Or.inr ⟨ns2, hns2, hrest⟩

theorem mem_collectRootImports (files : List FileParse) (y : String) :
    y ∈ collectRootImports files ↔
      ∃ nodes, (Except.ok nodes : FileParse) ∈ files ∧
        ∃ n ∈ nodes, y ∈ nodeImports n := by
  have h := mem_collect_aux files [] y
  simpa [collectRootImports] using h

theorem dictGet_lineFold_notin (lines : List String)
    (m : List (String × Option String)) (nm k : String)
    (h : ∀ mod ∈ lines, pyStrip mod ≠ "" → k ≠ pyLower (pyStrip mod)) :
    dictGet
        (lines.foldl
          (fun m2 mod =>
            if pyStrip mod ≠ "" then
              dictInsert m2 (pyLower (pyStrip mod)) (some nm)
            else m2)
          m) k =
      dictGet m k := by
  induction lines generalizing m with
  | nil => rfl
  | cons mod mods ih =>
    simp only [List.foldl_cons]
    rw [ih _ (fun x hx => h x (List.mem_cons_of_mem mod hx))]
    by_cases hs : pyStrip mod ≠ ""
    · rw [if_pos hs]
      exact dictGet_dictInsert_ne m _ k _ (h mod (List.mem_cons_self mod mods) hs)
    · rw [if_neg hs]

theorem dictGet_buildStep_notin (m : List (String × Option String)) (d : Dist)
    (k : String) (h : k ∉ distKeys d) :
    dictGet (buildStep m d) k = dictGet m k := by
  obtain ⟨nm, tl⟩ := d
  unfold distKeys at h
  unfold buildStep
  by_cases hn : nm ≠ ""
  · rw [if_pos hn] at h ⊢
    simp only [List.mem_cons, not_or] at h
    obtain ⟨hk1, hk2⟩ := h
    cases tl with
    | none =>
      exact dictGet_dictInsert_ne m _ k _ hk1
    | some txt =>
      by_cases ht : txt ≠ ""
      · simp only [if_pos ht] at hk2 ⊢
        rw [dictGet_lineFold_notin]
        · exact dictGet_dictInsert_ne m _ k _ hk1
        · intro mod hmod hs heq
          exact hk2
            (List.mem_map.mpr
              ⟨mod, List.mem_filter.mpr ⟨hmod, by simpa using hs⟩, heq.symm⟩)
      · simp only [if_neg ht] at hk2 ⊢
        exact dictGet_dictInsert_ne m _ k _ hk1
  · rw [if_neg hn]

theorem dictGet_buildFold (dists : List Dist) (m : List (String × Option String))
    (k : String) (h : k ∉ envKeys dists) :
    dictGet (dists.foldl buildStep m) k = dictGet m k := by
  induction dists generalizing m with
  | nil => rfl
  | cons d ds ih =>
    simp only [envKeys, List.map_cons, List.flatten_cons, List.mem_append,
      not_or] at h
    simp only [List.foldl_cons]
    rw [ih _ (by simpa [envKeys] using h.2)]
    exact dictGet_buildStep_notin m d k h.1

/-!
### Claims
-/

/-- Claim C1, counterexample: against a project whose manifest declares
`["requests"]` and whose source imports `requests` and `bs4`, the scan
command's suggestion list is exactly `bs4` — the raw import name, not the
distribution name `beautifulsoup4` that mapping through ImportNameMapper
would give, refuting the claimed scenario. -/
theorem c1_counterexample :
    suggest_missing_deps (some ⟨some ⟨some ["requests"]⟩⟩)
        [.ok [.imp ["requests"], .imp ["bs4"]]] = ["bs4"] ∧
      (["bs4"] : List String) ≠ ["beautifulsoup4"] :=
  ⟨rfl, by decide⟩

/-- Claim C1 (amended): the scan command's suggestion is the plain set
difference of the scanned root import names minus the manifest's declared
dependency strings as written — no ImportNameMapper mapping, no
standard-library exclusion, no normalization — and on the scenario
project it suggests exactly `bs4`. -/
theorem c1_amended :
    (∀ (disk : Option Manifest) (files : List FileParse) (x : String),
      x ∈ suggest_missing_deps disk files ↔
        (∃ nodes, (Except.ok nodes : FileParse) ∈ files ∧
            ∃ n ∈ nodes, x ∈ nodeImports n) ∧
          x ∉ get_dependencies disk) ∧
      suggest_missing_deps (some ⟨some ⟨some ["requests"]⟩⟩)
        [.ok [.imp ["requests"], .imp ["bs4"]]] = ["bs4"] := by
  refine ⟨?_, rfl⟩
  intro disk files x
  unfold suggest_missing_deps
  rw [mem_insertionSort, List.mem_filter]
  unfold scan_imports
  rw [mem_insertionSort, mem_collectRootImports]
  simp

/-- Claim C2, counterexample: an installed distribution named `mock`
declaring top-level module `mock` overwrites the manual alias
`mock → pytest-mock`, so `resolve` returns the environment-derived value
`mock` rather than the manual entry's value, refuting
manual-table-wins. -/
theorem c2_counterexample :
    ("mock", some "pytest-mock") ∈ manualMappings ∧
      resolve (buildImportPackageMap [⟨"mock", some "mock"⟩]) "mock" =
        some (some "mock") ∧
      (some (some "mock") : Option (Option String)) ≠ some (some "pytest-mock") :=
  ⟨by decide, rfl, by decide⟩

/-- Claim C2 (amended): the environment-derived pass writes over the
manual dict, so the later environment entry wins on a shared key; the
manual table decides exactly the names whose lowered form the environment
pass does not write. -/
theorem c2_amended (dists : List Dist) (name : String)
    (h : pyLower name ∉ envKeys dists) :
    resolve (buildImportPackageMap dists) name =
      dictGet manualMappings (pyLower name) := by
  unfold resolve buildImportPackageMap
  exact dictGet_buildFold dists manualMappings (pyLower name) h

/-- Witness for `c2_amended` at a concrete environment and name. -/
theorem c2_amended_witness :
    pyLower "cv2" ∉ envKeys [⟨"mock", some "mock"⟩] ∧
      resolve (buildImportPackageMap [⟨"mock", some "mock"⟩]) "cv2" =
        dictGet manualMappings (pyLower "cv2") :=
  ⟨by decide, c2_amended _ _ (by decide)⟩

/-- Claim C3 (top_level_only modelled from the spec): a record of the
snapshot is kept by `top_level_only` exactly when its name appears in no
other record's `declared_requires`. -/
theorem c3_top_level_only (records : List DistributionRecord)
    (d : DistributionRecord) (hd : d ∈ records) :
    d ∈ top_level_only records ↔
      ¬ ∃ e ∈ records, e ≠ d ∧ d.name ∈ e.declared_requires := by
  simp [top_level_only, List.mem_filter, hd]

/-- Witness for `c3_top_level_only`: `requests` requires `urllib3`, both
installed; `urllib3` is excluded (the right side is false for it). -/
theorem c3_witness :
    (⟨"urllib3", "1.26.0", []⟩ : DistributionRecord) ∈
        ([⟨"requests", "2.31.0", ["urllib3"]⟩, ⟨"urllib3", "1.26.0", []⟩] :
          List DistributionRecord) ∧
      ((⟨"urllib3", "1.26.0", []⟩ : DistributionRecord) ∈
          top_level_only
            [⟨"requests", "2.31.0", ["urllib3"]⟩, ⟨"urllib3", "1.26.0", []⟩] ↔
        ¬ ∃ e ∈ ([⟨"requests", "2.31.0", ["urllib3"]⟩,
              ⟨"urllib3", "1.26.0", []⟩] : List DistributionRecord),
            e ≠ ⟨"urllib3", "1.26.0", []⟩ ∧ "urllib3" ∈ e.declared_requires) :=
  ⟨by decide, c3_top_level_only _ _ (by decide)⟩

/-- Claim C4 (code bug), evaluation at the failing input: the manual
table carries the entry `PIL → pillow`, yet because the lookup lowercases
the queried name and the key is stored uppercase, `PIL` resolves to
nothing under any casing (shown here with an empty environment, where the
map is exactly the manual table). -/
theorem c4_pil_dead_entry :
    ("PIL", some "pillow") ∈ manualMappings ∧
      resolve (buildImportPackageMap []) "PIL" = none ∧
      resolve (buildImportPackageMap []) "pil" = none ∧
      resolve (buildImportPackageMap []) "Pil" = none :=
  ⟨by decide, rfl, rfl, rfl⟩

/-- Claim C5, counterexample: `os` is classified standard-library, yet a
manifest declaring `os` flows through `generate_from_pyproject` into the
resolved output unfiltered, refuting stdlib exclusion on all resolution
paths. -/
theorem c5_counterexample :
    "os" ∈ stdlibModules [] ∧
      generateFromPyproject (some (.ok ["os"])) (fun _ => "") = [("os", "")] :=
  ⟨by decide, rfl⟩

/-- Claim C5 (amended): the standard-library exclusion applies to the
scanned-imports path only — an import name classified stdlib contributes
nothing to `_map_imports_to_packages` — while manifest-declared and
environment-enumerated names are not filtered against the stdlib set. -/
theorem c5_amended (stdlib : List String)
    (impMap : List (String × Option String)) (version : String → String)
    (pre post : List String) (i : String) (hi : i ∈ stdlib) :
    mapImportsToPackages stdlib impMap version (pre ++ i :: post) =
      mapImportsToPackages stdlib impMap version (pre ++ post) := by
  unfold mapImportsToPackages
  rw [List.foldl_append, List.foldl_append, List.foldl_cons]
  congr 1
  simp [hi]

/-- Witness for `c5_amended` at a concrete stdlib name and import set. -/
theorem c5_amended_witness :
    "os" ∈ stdlibModules [] ∧
      mapImportsToPackages (stdlibModules []) manualMappings (fun _ => "")
          (["bs4"] ++ "os" :: []) =
        mapImportsToPackages (stdlibModules []) manualMappings (fun _ => "")
          (["bs4"] ++ []) :=
  ⟨by decide, c5_amended _ _ _ _ _ _ (by decide)⟩

/-- Claim C6: `write_requirements` emits the generator-identifying header
followed by exactly one line per entry, sorted by name, `name==version`
when a version is present and bare `name` otherwise; the
`{pandas: 2.1.0, flask: absent}` mapping gives exactly `flask` then
`pandas==2.1.0` after the header, and the empty mapping gives a
header-only file. -/
theorem c6_write_requirements :
    (∀ packages : List (String × String),
      ∃ entries : List (String × String),
        List.Perm entries packages ∧
          entries.Pairwise (fun p q => strLe p.1 q.1 = true) ∧
          write_requirements packages =
            headerLines ++
              entries.map
                (fun p => if p.2 ≠ "" then p.1 ++ "==" ++ p.2 else p.1)) ∧
      write_requirements [("pandas", "2.1.0"), ("flask", "")] =
        headerLines ++ ["flask", "pandas==2.1.0"] ∧
      write_requirements [] = headerLines := by
  refine ⟨?_, rfl, rfl⟩
  intro packages
  refine ⟨sortByName packages, insertionSort_perm _ _, ?_, rfl⟩
  exact pairwise_insertionSort _ (fun a b => strLe_total a.1 b.1)
    (fun a b c => strLe_trans a.1 b.1 c.1) packages

/-- Claim C7: an unrecognized resolution method makes
`update_requirements` raise `ValueError` before any write (the error
carries the offending method, and no dispatch branch — hence no
`write_requirements` call — is taken). -/
theorem c7_unknown_method (w : World) (method : String)
    (h : method ∉ (["auto", "env", "imports", "pyproject"] : List String)) :
    update_requirements w method = .error ("Unknown method: " ++ method) := by
  simp only [List.mem_cons, List.not_mem_nil, or_false, not_or] at h
  obtain ⟨h1, h2, h3, h4⟩ := h
  simp [update_requirements, if_neg h1, if_neg h2, if_neg h3, if_neg h4]

/-- Witness for `c7_unknown_method` at the method string `freeze`. -/
theorem c7_witness :
    ("freeze" : String) ∉ (["auto", "env", "imports", "pyproject"] : List String) ∧
      update_requirements ⟨none, [], [], [], [], fun _ => ""⟩ "freeze" =
        .error "Unknown method: freeze" :=
  ⟨by decide, c7_unknown_method _ _ (by decide)⟩

/-- Claim C8: import scanning returns exactly the union of root import
names over the files whose read and parse succeeded (a failed file
contributes nothing), and deleting a failed file from the scan list does
not change the result — the remaining files are still scanned, and the
scan, a total function here, raises nothing. -/
theorem c8_scan_imports (files : List FileParse) (x : String)
    (pre post : List FileParse) :
    (x ∈ scanImportsWriter files ↔
      ∃ nodes, (Except.ok nodes : FileParse) ∈ files ∧
        ∃ n ∈ nodes, x ∈ nodeImports n) ∧
      scanImportsWriter (pre ++ Except.error () :: post) =
        scanImportsWriter (pre ++ post) := by
  constructor
  · exact mem_collectRootImports files x
  · unfold scanImportsWriter collectRootImports
    rw [List.foldl_append, List.foldl_append, List.foldl_cons]

/-- Claim C9: `add_dependency` errors with a directive to initialize when
no manifest exists; with a manifest it returns `true` and appends exactly
when the specifier is absent, and returns `false` leaving the file
untouched when it is already present. -/
theorem c9_add_dependency (m : Manifest) (dep : String) :
    add_dependency none dep =
        .error "pyproject.toml not found. Run 'metapkg init' first." ∧
      (dep ∈ get_dependencies (some m) →
        add_dependency (some m) dep = .ok (some m, false)) ∧
      (dep ∉ get_dependencies (some m) →
        add_dependency (some m) dep =
          .ok (some ⟨some ⟨some (get_dependencies (some m) ++ [dep])⟩⟩,
            true)) := by
  refine ⟨rfl, ?_, ?_⟩
  · intro h
    have h2 : dep ∈ (m.project.getD ⟨none⟩).dependencies.getD [] := h
    simp [add_dependency, h2]
  · intro h
    have h2 : dep ∉ (m.project.getD ⟨none⟩).dependencies.getD [] := h
    simp [add_dependency, get_dependencies, h2]

/-- Witness for `c9_add_dependency` covering all three branches. -/
theorem c9_witness :
    add_dependency none "rich" =
        .error "pyproject.toml not found. Run 'metapkg init' first." ∧
      "requests" ∈ get_dependencies (some ⟨some ⟨some ["requests"]⟩⟩) ∧
      add_dependency (some ⟨some ⟨some ["requests"]⟩⟩) "requests" =
        .ok (some ⟨some ⟨some ["requests"]⟩⟩, false) ∧
      "flask" ∉ get_dependencies (some ⟨some ⟨some ["requests"]⟩⟩) ∧
      add_dependency (some ⟨some ⟨some ["requests"]⟩⟩) "flask" =
        .ok (some ⟨some ⟨some ["requests", "flask"]⟩⟩, true) :=
  ⟨(c9_add_dependency ⟨some ⟨some ["requests"]⟩⟩ "rich").1,
   by decide,
   (c9_add_dependency ⟨some ⟨some ["requests"]⟩⟩ "requests").2.1 (by decide),
   by decide,
   (c9_add_dependency ⟨some ⟨some ["requests"]⟩⟩ "flask").2.2 (by decide)⟩

/-- Claim C10: with method `auto`, `update_requirements` behaves exactly
as with method `pyproject` when the manifest file exists and exactly as
with method `imports` when it does not. -/
theorem c10_auto_method (w : World) :
    (w.pyproject.isSome = true →
      update_requirements w "auto" = update_requirements w "pyproject") ∧
      (w.pyproject.isSome = false →
        update_requirements w "auto" = update_requirements w "imports") := by
  obtain ⟨pp, files, envp, dists, sl, ver⟩ := w
  cases pp with
  | none =>
    constructor
    · intro h; simp at h
    · intro h; rfl
  | some p =>
    constructor
    · intro h; rfl
    · intro h; simp at h

/-- Witness for `c10_auto_method` on a world with and a world without a
manifest. -/
theorem c10_witness :
    ((⟨some (.ok []), [], [], [], [], fun _ => ""⟩ : World).pyproject.isSome
        = true) ∧
      update_requirements ⟨some (.ok []), [], [], [], [], fun _ => ""⟩ "auto" =
        update_requirements ⟨some (.ok []), [], [], [], [], fun _ => ""⟩
          "pyproject" ∧
      ((⟨none, [], [], [], [], fun _ => ""⟩ : World).pyproject.isSome
        = false) ∧
      update_requirements ⟨none, [], [], [], [], fun _ => ""⟩ "auto" =
        update_requirements ⟨none, [], [], [], [], fun _ => ""⟩ "imports" :=
  ⟨rfl, (c10_auto_method _).1 rfl, rfl, (c10_auto_method _).2 rfl⟩

end Metapkg
